import Mathlib

/-!
Verification of the RAMCloud master's mutation and recovery engine against
its natural-language specification.  The repository ships only the master's
unit-test file (src/MasterTest.cc); the master implementation itself
(MasterServer) is not part of the sources, so the definitions below are a
shallow embedding modelled from the specification, cross-checked against
the behaviour the unit tests pin down.  Machine integers (u32/u64) are
modelled as Nat: every operation here only compares, copies or increments
versions and identifiers, so no overflow is reachable in the modelled
behaviour.
-/

namespace RAMCloud

/-- A table identifier (u32 in the wire format). -/
abbrev TableId := Nat

/-- An object identifier (u64 in the wire format). -/
abbrev ObjectId := Nat

/-- An object version (u64 in the wire format). -/
abbrev Version := Nat

/-- The key of an object: (tableId, objectId). -/
abbrev Key := TableId × ObjectId

/-- Modelled from the spec: sentinel version meaning "no object"
(`VERSION_NONEXISTENT = 0`; real versions start at 1). -/
def VERSION_NONEXISTENT : Version := 0

/-- Modelled from the spec: the closed set of error kinds the master
returns to clients (§7). -/
inductive Status where
  | TABLE_DOESNT_EXIST
  | OBJECT_DOESNT_EXIST
  | OBJECT_EXISTS
  | WRONG_VERSION
deriving DecidableEq, Repr

/-- Modelled from the spec: the RejectRules wire struct
(`givenVersion:u64, doesntExist:u8, exists:u8, versionLeGiven:u8,
versionNeGiven:u8`).  The C++ field named `exists` is a Lean keyword and
is rendered `exists_`. -/
structure RejectRules where
  givenVersion : Version := 0
  doesntExist : Bool := false
  exists_ : Bool := false
  versionLeGiven : Bool := false
  versionNeGiven : Bool := false
deriving DecidableEq, Repr

/-- The empty RejectRules (all flags clear), as produced by the tests'
`memset(&rules, 0, sizeof(rules))` and by passing NULL rules. -/
def noRules : RejectRules := {}

/-- Modelled from the spec: `MasterServer::rejectOperation` (missing from
the sources; its contract is §4.4's rule table plus
`MasterTest::test_rejectOperation`).  Returns `some status` when a rule
fires, `none` when the operation may proceed.  `version =
VERSION_NONEXISTENT` means "no object": in that case only `doesntExist`
can fire (the test asserts that `exists`, `versionLeGiven` and
`versionNeGiven` together do not fire on a nonexistent object). -/
def rejectOperation (rules : RejectRules) (version : Version) : Option Status :=
  if version = VERSION_NONEXISTENT then
    if rules.doesntExist then some .OBJECT_DOESNT_EXIST else none
  else if rules.exists_ then some .OBJECT_EXISTS
  else if rules.versionLeGiven ∧ version ≤ rules.givenVersion then some .WRONG_VERSION
  else if rules.versionNeGiven ∧ version ≠ rules.givenVersion then some .WRONG_VERSION
  else none

/-- Modelled from the spec: an ObjectIndex entry — a live object reference
(version plus value bytes, the value modelled as a string as in the tests)
or a tombstone reference (segmentId of the removed object's segment plus
the removed object's version). -/
inductive IndexEntry where
  | object (version : Version) (value : String)
  | tombstone (segmentId : Nat) (objectVersion : Version)
deriving DecidableEq, Repr

/-- Modelled from the spec: the ObjectIndex (`MasterServer::objectMap`),
a map from keys to at most one tagged entry. -/
abbrev ObjectMap := Key → Option IndexEntry

/-- Pointwise update of an ObjectMap at one key. -/
def ObjectMap.update (m : ObjectMap) (k : Key) (e : Option IndexEntry) : ObjectMap :=
  fun k' => if k' = k then e else m k'

/-- Modelled from the spec: a typed log entry as seen by segment replay —
an OBJECT entry (LOG_ENTRY_TYPE_OBJ) or a TOMBSTONE entry
(LOG_ENTRY_TYPE_OBJTOMB, carrying the segmentId of the removed object's
segment and the removed object's version). -/
inductive LogEntry where
  | obj (tableId : TableId) (objectId : ObjectId) (version : Version) (data : String)
  | tomb (segmentId : Nat) (tableId : TableId) (objectId : ObjectId) (objectVersion : Version)
deriving DecidableEq, Repr

/-- The key a log entry is indexed under. -/
def LogEntry.key : LogEntry → Key
  | .obj t i _ _ => (t, i)
  | .tomb _ t i _ => (t, i)

/-- The index entry a log entry becomes when it is accepted by replay. -/
def LogEntry.toIndex : LogEntry → IndexEntry
  | .obj _ _ v d => .object v d
  | .tomb sid _ _ v => .tombstone sid v

/-- Modelled from the spec: the §4.6 three-way merge for one replayed log
entry (the body of `MasterServer::recoverSegment`'s per-entry loop, which
is missing from the sources; its cases are restated verbatim in the
comments of `MasterTest::test_recoverSegment`).  An OBJECT entry of
version Vr beats an existing object of version Vo iff Vr > Vo, and an
existing tombstone of version Vt iff Vr > Vt; a TOMBSTONE entry of
version Vt beats an existing object of version Vo iff Vt ≥ Vo, and an
existing tombstone of version Vt' iff Vt > Vt'; with nothing present the
entry is always accepted.  The §4.6 per-tablet counter bump is not
modelled; no claim concerns it. -/
def recoverEntry (m : ObjectMap) (e : LogEntry) : ObjectMap :=
  match e with
  | .obj t i vr data =>
    match m (t, i) with
    | some (.object vo _) =>
        if vo < vr then m.update (t, i) (some (.object vr data)) else m
    | some (.tombstone _ vt) =>
        if vt < vr then m.update (t, i) (some (.object vr data)) else m
    | none => m.update (t, i) (some (.object vr data))
  | .tomb sid t i vt =>
    match m (t, i) with
    | some (.object vo _) =>
        if vo ≤ vt then m.update (t, i) (some (.tombstone sid vt)) else m
    | some (.tombstone _ vt') =>
        if vt' < vt then m.update (t, i) (some (.tombstone sid vt)) else m
    | none => m.update (t, i) (some (.tombstone sid vt))

/-- Modelled from the spec: replay of one recovered segment into the
ObjectIndex — the entries are merged in append order. -/
def recoverSegmentMap (m : ObjectMap) (entries : List LogEntry) : ObjectMap :=
  entries.foldl recoverEntry m

/-- Modelled from the spec: the post-recovery tombstone sweep
(`MasterServer::removeTombstones`): every tombstone entry is removed from
the index, live objects are kept. -/
def removeTombstonesMap (m : ObjectMap) : ObjectMap :=
  fun k =>
    match m k with
    | some (.tombstone _ _) => none
    | e => e

/-- Modelled from the spec: a tablet's lifecycle state (§3; the
LOCKED_FOR_MIGRATION state is never used by any claim and is omitted). -/
inductive TabletState where
  | NORMAL
  | RECOVERING
deriving DecidableEq, Repr

/-- Modelled from the spec: one entry of the master's tablet set (the
ProtoBuf `Tablets_Tablet` record of the tests): a closed object-id range
within a table, its state, and `user_data` holding the per-table handle
(the tests store a `Table*` there; the model uses a numeric handle). -/
structure Tablet where
  table_id : TableId
  start_object_id : ObjectId
  end_object_id : ObjectId
  state : TabletState
  user_data : Nat
deriving DecidableEq, Repr

/-- Modelled from the spec: the per-table state behind a handle: the
object-id allocator used by `create` and the version counter (the highest
version ever issued in the table; invariant 4 of §3). -/
structure Table where
  tableId : TableId
  nextId : ObjectId
  versionCounter : Version
deriving DecidableEq, Repr

/-- A freshly constructed per-table state (C++ `new Table(tableId)`):
no id allocated yet, no version issued yet (the first create or write
issues version 1). -/
def Table.new (tid : TableId) : Table :=
  { tableId := tid, nextId := 0, versionCounter := 0 }

/-- Modelled from the spec: the master's state — the tablet set, the
per-table states keyed by handle, the fresh-handle allocator, and the
ObjectIndex. -/
structure MasterState where
  tablets : List Tablet
  tables : Nat → Option Table
  nextHandle : Nat
  objectMap : ObjectMap

/-- The master state `MasterTest::setUp` builds: one NORMAL tablet for
table 0 covering object ids 0 through 2^64 - 1, whose `user_data` is a
fresh `Table(0)`. -/
def initialMaster : MasterState :=
  { tablets := [{ table_id := 0, start_object_id := 0,
                  end_object_id := 2 ^ 64 - 1, state := .NORMAL, user_data := 0 }],
    tables := fun h => if h = 0 then some (Table.new 0) else none,
    nextHandle := 1,
    objectMap := fun _ => none }

/-- Modelled from the spec: `MasterServer::getTable` — the handle of the
NORMAL tablet covering the key, or `none` (TABLE_DOESNT_EXIST) when no
owned tablet covers it (§4.3). -/
def getTable (s : MasterState) (tableId : TableId) (objectId : ObjectId) : Option Nat :=
  (s.tablets.find? (fun t =>
      decide (t.table_id = tableId ∧ t.start_object_id ≤ objectId ∧
              objectId ≤ t.end_object_id ∧ t.state = TabletState.NORMAL))).map
    Tablet.user_data

/-- Modelled from the spec: the table handle `create` allocates from — the
first NORMAL tablet of the table (create picks the id itself, so the
lookup is by table only). -/
def getTableForCreate (s : MasterState) (tableId : TableId) : Option Nat :=
  (s.tablets.find? (fun t =>
      decide (t.table_id = tableId ∧ t.state = TabletState.NORMAL))).map
    Tablet.user_data

/-- The live object stored under a key, if any (tombstoned and absent
keys both count as "no object"). -/
def liveObject (s : MasterState) (tableId : TableId) (objectId : ObjectId) :
    Option (Version × String) :=
  match s.objectMap (tableId, objectId) with
  | some (.object v val) => some (v, val)
  | _ => none

/-- The current version a key presents to the reject rules:
the live object's version, or VERSION_NONEXISTENT when absent or
tombstoned. -/
def currentVersion (s : MasterState) (tableId : TableId) (objectId : ObjectId) : Version :=
  match s.objectMap (tableId, objectId) with
  | some (.object v _) => v
  | _ => VERSION_NONEXISTENT

/-- Modelled from the spec: `MasterServer::read` (§4.4).  Fails with
TABLE_DOESNT_EXIST when no tablet covers the key, with
OBJECT_DOESNT_EXIST when no live object is present, and with the firing
rule's status otherwise; errors carry the current version returned to the
caller.  On success returns the value bytes and the current version. -/
def read (s : MasterState) (tableId : TableId) (objectId : ObjectId)
    (rules : RejectRules) : Except (Status × Version) (String × Version) :=
  match getTable s tableId objectId with
  | none => .error (.TABLE_DOESNT_EXIST, VERSION_NONEXISTENT)
  | some _ =>
    match s.objectMap (tableId, objectId) with
    | some (.object v value) =>
      match rejectOperation rules v with
      | some st => .error (st, v)
      | none => .ok (value, v)
    | _ => .error (.OBJECT_DOESNT_EXIST, VERSION_NONEXISTENT)

/-- Modelled from the spec: `MasterServer::write` (§4.4).  Applies the
reject rules against the current version; on pass stores the value at
`newVersion = max(currentVersion, tabletCounter) + 1`, updates the
counter, and returns the new version.  On rejection the state is
unchanged and the error carries the current version. -/
def write (s : MasterState) (tableId : TableId) (objectId : ObjectId)
    (value : String) (rules : RejectRules) :
    Except (Status × Version) Version × MasterState :=
  match getTable s tableId objectId with
  | none => (.error (.TABLE_DOESNT_EXIST, VERSION_NONEXISTENT), s)
  | some h =>
    let curV := currentVersion s tableId objectId
    match rejectOperation rules curV with
    | some st => (.error (st, curV), s)
    | none =>
      let tbl := (s.tables h).getD (Table.new tableId)
      let newVersion := max curV tbl.versionCounter + 1
      (.ok newVersion,
       { s with
         objectMap := s.objectMap.update (tableId, objectId)
                        (some (.object newVersion value)),
         tables := fun h' =>
           if h' = h then some { tbl with versionCounter := newVersion }
           else s.tables h' })

/-- Modelled from the spec: `MasterServer::create` (§4.4 and scenario S1).
Allocates the table's next unused objectId (monotone per-table counter,
always fresh in the modelled traces, so the "retry with next id" clause is
unreachable and not modelled), issues the next version from the table's
counter, stores the object and returns (objectId, version).  §4.4's
"sets version = 1" is contradicted by scenario S1 and by
`MasterTest::test_create_basics` (the second create returns version 2);
the model follows S1 and the test. -/
def create (s : MasterState) (tableId : TableId) (value : String) :
    Except (Status × Version) (ObjectId × Version) × MasterState :=
  match getTableForCreate s tableId with
  | none => (.error (.TABLE_DOESNT_EXIST, VERSION_NONEXISTENT), s)
  | some h =>
    let tbl := (s.tables h).getD (Table.new tableId)
    let id := tbl.nextId
    let newVersion := tbl.versionCounter + 1
    (.ok (id, newVersion),
     { s with
       objectMap := s.objectMap.update (tableId, id)
                      (some (.object newVersion value)),
       tables := fun h' =>
         if h' = h then
           some { tbl with nextId := id + 1, versionCounter := newVersion }
         else s.tables h' })

/-- Modelled from the spec: `MasterServer::remove` (§4.4).  When no live
object is present, returns VERSION_NONEXISTENT unless the rules reject.
When present, applies the rules against the current version; on pass
replaces the index entry with a tombstone carrying the object's current
version (the segmentId of the modelled active segment is 0), increments
the table counter, and returns the removed object's version. -/
def remove (s : MasterState) (tableId : TableId) (objectId : ObjectId)
    (rules : RejectRules) : Except (Status × Version) Version × MasterState :=
  match getTable s tableId objectId with
  | none => (.error (.TABLE_DOESNT_EXIST, VERSION_NONEXISTENT), s)
  | some h =>
    match s.objectMap (tableId, objectId) with
    | some (.object v _) =>
      match rejectOperation rules v with
      | some st => (.error (st, v), s)
      | none =>
        let tbl := (s.tables h).getD (Table.new tableId)
        (.ok v,
         { s with
           objectMap := s.objectMap.update (tableId, objectId)
                          (some (.tombstone 0 v)),
           tables := fun h' =>
             if h' = h then
               some { tbl with versionCounter := tbl.versionCounter + 1 }
             else s.tables h' })
    | _ =>
      match rejectOperation rules VERSION_NONEXISTENT with
      | some st => (.error (st, VERSION_NONEXISTENT), s)
      | none => (.ok VERSION_NONEXISTENT, s)

/-- Modelled from the spec: `MasterServer::recoverSegment` lifted to the
master state — replays one recovered segment's entries into the
ObjectIndex under the §4.6 merge. -/
def recoverSegment (s : MasterState) (entries : List LogEntry) : MasterState :=
  { s with objectMap := recoverSegmentMap s.objectMap entries }

/-- Modelled from the spec: `MasterServer::removeTombstones` lifted to
the master state. -/
def removeTombstones (s : MasterState) : MasterState :=
  { s with objectMap := removeTombstonesMap s.objectMap }

/-- First-match lookup of a table's handle in a (tableId, handle)
association list (the `std::map<uint32_t, Table*>` of the C++ loop). -/
def lookupHandle : List (TableId × Nat) → TableId → Option Nat
  | [], _ => none
  | p :: rest, tid => if p.1 = tid then some p.2 else lookupHandle rest tid

/-- Modelled from the spec: the body of `MasterServer::setTablets`' loop
over the new tablet set (the implementation is missing from the sources;
`MasterTest::test_setTablets` pins the behaviour).  Each new tablet's
`user_data` is set to the handle already mapped for its table; a table
with no handle yet gets a fresh one (a fresh `Table`), recorded so that
later tablets of the same table share it.  Returns the assigned tablets,
the updated per-table states, and the next fresh handle. -/
def assignHandles (handles : List (TableId × Nat)) (tables : Nat → Option Table)
    (next : Nat) : List Tablet → List Tablet × (Nat → Option Table) × Nat
  | [] => ([], tables, next)
  | t :: rest =>
    match lookupHandle handles t.table_id with
    | some h =>
      let r := assignHandles handles tables next rest
      ({ t with user_data := h } :: r.1, r.2)
    | none =>
      let r := assignHandles ((t.table_id, next) :: handles)
          (fun h' => if h' = next then some (Table.new t.table_id) else tables h')
          (next + 1) rest
      ({ t with user_data := next } :: r.1, r.2)

/-- Modelled from the spec: `MasterServer::setTablets` — atomically
replaces the tablet set (§4.3).  Handles of tables that survive into the
new set are reused (their per-table state is kept); tables that appear
only in the new set get a fresh handle and a fresh per-table state;
per-table states no longer referenced by any tablet are dropped. -/
def setTablets (s : MasterState) (newTablets : List Tablet) : MasterState :=
  let r := assignHandles (s.tablets.map fun t => (t.table_id, t.user_data))
      s.tables s.nextHandle newTablets
  { tablets := r.1,
    tables := fun h =>
      if r.1.any (fun t => decide (t.user_data = h)) then r.2.1 h else none,
    nextHandle := r.2.2,
    objectMap := s.objectMap }

/-- The strength an index cell presents to the §4.6 merge: an absent cell
is weakest; at equal versions a tombstone beats an object (the `≥` rule
for tombstones over objects versus the strict `>` everywhere else). -/
def stateRank : Option IndexEntry → Nat
  | none => 0
  | some (.object v _) => 2 * v + 1
  | some (.tombstone _ v) => 2 * v + 2

/-- One merge step on a single index cell: the replayed entry wins iff it
is strictly stronger than what the cell holds. -/
def stepEntry (cur : Option IndexEntry) (e : LogEntry) : Option IndexEntry :=
  if stateRank cur < stateRank (some e.toIndex) then some e.toIndex else cur

/-- A list of log entries is well-versioned when two entries for the same
key with the same version and the same kind (object/tombstone) are the
same entry — in a real log, per-key versions identify entries uniquely. -/
abbrev WellVersioned (es : List LogEntry) : Prop :=
  ∀ a ∈ es, ∀ b ∈ es, a.key = b.key →
    stateRank (some a.toIndex) = stateRank (some b.toIndex) → a = b

/-- A master owning tables 1 and 2 (handles 5 and 6), as
`MasterTest::test_setTablets` sets up before calling setTablets. -/
def twoTableMaster : MasterState :=
  { tablets := [
      { table_id := 1, start_object_id := 0, end_object_id := 1,
        state := .NORMAL, user_data := 5 },
      { table_id := 2, start_object_id := 0, end_object_id := 1,
        state := .NORMAL, user_data := 6 }],
    tables := fun h =>
      if h = 5 then some (Table.new 1)
      else if h = 6 then some (Table.new 2) else none,
    nextHandle := 7,
    objectMap := fun _ => none }

/-- The new tablet set of `MasterTest::test_setTablets`: two tablets of
table 2 and one of table 3, supplied without handles. -/
def newTabletSet : List Tablet := [
  { table_id := 2, start_object_id := 0, end_object_id := 1,
    state := .NORMAL, user_data := 0 },
  { table_id := 2, start_object_id := 2, end_object_id := 3,
    state := .NORMAL, user_data := 0 },
  { table_id := 3, start_object_id := 0, end_object_id := 1,
    state := .NORMAL, user_data := 0 }]

/-! ## Helper lemmas -/

/-- On a nonexistent object only the doesntExist rule can fire. -/
theorem rejectOperation_zero (rules : RejectRules) :
    rejectOperation rules VERSION_NONEXISTENT =
      if rules.doesntExist then some Status.OBJECT_DOESNT_EXIST else none := by
  simp [rejectOperation]

/-- Empty reject rules never reject. -/
theorem rejectOperation_noRules (v : Version) : rejectOperation noRules v = none := by
  simp [rejectOperation, noRules]

/-! ## Claims about rejectOperation -/

/-- C5: for an existing object (currentVersion ≠ VERSION_NONEXISTENT) and
any given version, the versionLeGiven rule rejects with WRONG_VERSION iff
currentVersion ≤ givenVersion, and the versionNeGiven rule rejects with
WRONG_VERSION iff currentVersion ≠ givenVersion; the comparisons are on
the full version values (the witness exercises values above 2^32). -/
theorem rejectOperation_versionRules (cur given : Version)
    (h : cur ≠ VERSION_NONEXISTENT) :
    (rejectOperation { givenVersion := given, versionLeGiven := true } cur =
        some Status.WRONG_VERSION ↔ cur ≤ given) ∧
    (rejectOperation { givenVersion := given, versionLeGiven := true } cur =
        none ↔ given < cur) ∧
    (rejectOperation { givenVersion := given, versionNeGiven := true } cur =
        some Status.WRONG_VERSION ↔ cur ≠ given) ∧
    (rejectOperation { givenVersion := given, versionNeGiven := true } cur =
        none ↔ cur = given) := by
  simp only [rejectOperation, VERSION_NONEXISTENT] at *
  rw [if_neg h, if_neg h]
  simp only [Bool.false_eq_true, if_false, true_and, false_and, if_true]
  refine ⟨?_, ?_, ?_, ?_⟩ <;> split_ifs <;> simp_all

/-- C5 witness: instantiated at the 33-bit versions of
`MasterTest::test_rejectOperation`. -/
theorem rejectOperation_versionRules_witness :
    (0x400000000 : Version) ≠ VERSION_NONEXISTENT ∧
    ((rejectOperation { givenVersion := 0x400000001, versionLeGiven := true }
        0x400000000 = some Status.WRONG_VERSION ↔
        (0x400000000 : Version) ≤ 0x400000001) ∧
     (rejectOperation { givenVersion := 0x400000001, versionLeGiven := true }
        0x400000000 = none ↔ (0x400000001 : Version) < 0x400000000) ∧
     (rejectOperation { givenVersion := 0x400000001, versionNeGiven := true }
        0x400000000 = some Status.WRONG_VERSION ↔
        (0x400000000 : Version) ≠ 0x400000001) ∧
     (rejectOperation { givenVersion := 0x400000001, versionNeGiven := true }
        0x400000000 = none ↔ (0x400000000 : Version) = 0x400000001)) :=
  ⟨by decide, rejectOperation_versionRules 0x400000000 0x400000001 (by decide)⟩

/-- C6: rejectOperation is a (pure) function of the rules and the current
version, and on a nonexistent object the only rule that can fire is
doesntExist: with doesntExist clear it returns none even when exists,
versionLeGiven and versionNeGiven are all set; with doesntExist set it
rejects with OBJECT_DOESNT_EXIST. -/
theorem rejectOperation_nonexistent :
    (∀ rules : RejectRules,
        rejectOperation rules VERSION_NONEXISTENT =
          if rules.doesntExist then some Status.OBJECT_DOESNT_EXIST else none) ∧
    (∀ g : Version,
        rejectOperation
          { givenVersion := g, doesntExist := false, exists_ := true,
            versionLeGiven := true, versionNeGiven := true }
          VERSION_NONEXISTENT = none) := by
  refine ⟨rejectOperation_zero, fun g => ?_⟩
  simp [rejectOperation]

/-! ## Claims about create -/

/-- C3 counterexample: on the master of `MasterTest::setUp`, the second
create does not assign version 1 — it returns objectId 1 with version 2,
exactly as `test_create_basics` asserts. -/
theorem create_second_version_is_two :
    (create (create initialMaster 0 "item0").2 0 "item1").1 =
      .ok (1, 2) ∧ (2 : Version) ≠ 1 :=
  ⟨rfl, by decide⟩

/-- C3 (amended): every successful create assigns the newly created
object the version after the table's version counter — version 1 for the
first create in a fresh table, and successively larger versions for later
creates — and returns that version together with the allocated id. -/
theorem create_assigns_next_version (s : MasterState) (tid : TableId)
    (value : String) (h : Nat) (tbl : Table)
    (hh : getTableForCreate s tid = some h) (ht : s.tables h = some tbl) :
    (create s tid value).1 = .ok (tbl.nextId, tbl.versionCounter + 1) ∧
    (create s tid value).2.objectMap (tid, tbl.nextId) =
      some (.object (tbl.versionCounter + 1) value) := by
  simp [create, hh, ht, ObjectMap.update]

/-- C3 witness: the first create on the fresh table of the setUp master
allocates id 0 and version 1. -/
theorem create_assigns_next_version_witness :
    getTableForCreate initialMaster 0 = some 0 ∧
    initialMaster.tables 0 = some (Table.new 0) ∧
    (create initialMaster 0 "item0").1 = .ok ((Table.new 0).nextId, (Table.new 0).versionCounter + 1) :=
  ⟨by decide, rfl,
   (create_assigns_next_version initialMaster 0 "item0" 0 (Table.new 0)
      (by decide) rfl).1⟩

/-! ## Claims about remove -/

/-- C8: a remove on a key with no live object succeeds and returns
VERSION_NONEXISTENT, leaving the state unchanged, unless the doesntExist
rule is set, in which case (and only in which case) it fails with
OBJECT_DOESNT_EXIST. -/
theorem remove_absent_object (s : MasterState) (tid : TableId) (oid : ObjectId)
    (rules : RejectRules) (hdl : Nat)
    (hg : getTable s tid oid = some hdl)
    (hl : liveObject s tid oid = none) :
    remove s tid oid rules =
      if rules.doesntExist then
        (.error (Status.OBJECT_DOESNT_EXIST, VERSION_NONEXISTENT), s)
      else (.ok VERSION_NONEXISTENT, s) := by
  unfold remove
  rw [hg]
  unfold liveObject at hl
  rcases hm : s.objectMap (tid, oid) with _ | e
  · rw [rejectOperation_zero]
    rcases hde : rules.doesntExist <;> simp
  · rcases e with ⟨v, val⟩ | ⟨sid, v⟩
    · rw [hm] at hl; simp at hl
    · rw [rejectOperation_zero]
      rcases hde : rules.doesntExist <;> simp

/-- C8 witness: removing never-created key (0, 1) on the setUp master
returns VERSION_NONEXISTENT, as `test_remove_objectAlreadyDeleted`
asserts. -/
theorem remove_absent_object_witness :
    getTable initialMaster 0 1 = some 0 ∧
    liveObject initialMaster 0 1 = none ∧
    remove initialMaster 0 1 noRules = (.ok VERSION_NONEXISTENT, initialMaster) := by
  refine ⟨by decide, rfl, ?_⟩
  have h := remove_absent_object initialMaster 0 1 noRules 0 (by decide) rfl
  simpa [noRules] using h

/-- C9: a remove of an existing object that the rules do not reject
returns the object's version at the time of removal, not an incremented
version. -/
theorem remove_returns_current_version (s : MasterState) (tid : TableId)
    (oid : ObjectId) (rules : RejectRules) (v : Version) (val : String) (hdl : Nat)
    (hg : getTable s tid oid = some hdl)
    (hm : s.objectMap (tid, oid) = some (.object v val))
    (hr : rejectOperation rules v = none) :
    (remove s tid oid rules).1 = .ok v := by
  simp [remove, hg, hm, hr]

/-- C9 witness: create then remove on the setUp master — the remove
returns version 1, as `test_remove_basics` asserts. -/
theorem remove_returns_current_version_witness :
    getTable (create initialMaster 0 "item0").2 0 0 = some 0 ∧
    (create initialMaster 0 "item0").2.objectMap (0, 0) =
      some (.object 1 "item0") ∧
    rejectOperation noRules 1 = none ∧
    (remove (create initialMaster 0 "item0").2 0 0 noRules).1 = .ok 1 :=
  ⟨by decide, rfl, rfl,
   remove_returns_current_version (create initialMaster 0 "item0").2 0 0 noRules
     1 "item0" 0 (by decide) rfl rfl⟩

/-! ## Rejection behaviour of read, write and remove -/

/-- C7: whenever a reject rule fires on a read, write, or remove, the
operation fails with the firing rule's status, the current version
(VERSION_NONEXISTENT when no live object exists) is returned to the
caller, and the master state is unchanged (read never mutates; write and
remove return the input state on rejection). -/
theorem reject_fires_error_and_frame (s : MasterState) (tid : TableId)
    (oid : ObjectId) (value : String) (rules : RejectRules) (st : Status)
    (hdl : Nat)
    (hg : getTable s tid oid = some hdl)
    (hr : rejectOperation rules (currentVersion s tid oid) = some st) :
    read s tid oid rules = .error (st, currentVersion s tid oid) ∧
    write s tid oid value rules = (.error (st, currentVersion s tid oid), s) ∧
    remove s tid oid rules = (.error (st, currentVersion s tid oid), s) := by
  have hwrite : write s tid oid value rules =
      (.error (st, currentVersion s tid oid), s) := by
    simp [write, hg, hr]
  refine ⟨?_, hwrite, ?_⟩ <;>
  · unfold currentVersion at hr ⊢
    rcases hm : s.objectMap (tid, oid) with _ | e
    · rw [hm] at hr
      rw [rejectOperation_zero] at hr
      rcases hde : rules.doesntExist <;> rw [hde] at hr <;> simp at hr
      simp [read, remove, hg, hm, rejectOperation_zero, hde, ← hr]
    · rcases e with ⟨v, val⟩ | ⟨sid, v⟩
      · rw [hm] at hr
        simp [read, remove, hg, hm, hr]
      · rw [hm] at hr
        rw [rejectOperation_zero] at hr
        rcases hde : rules.doesntExist <;> rw [hde] at hr <;> simp at hr
        simp [read, remove, hg, hm, rejectOperation_zero, hde, ← hr]

/-- C7 witness: a doesntExist-rule read/write/remove on the absent key
(0, 0) of the setUp master fails with OBJECT_DOESNT_EXIST carrying
VERSION_NONEXISTENT and leaves the state unchanged. -/
theorem reject_fires_error_and_frame_witness :
    getTable initialMaster 0 0 = some 0 ∧
    rejectOperation { doesntExist := true } (currentVersion initialMaster 0 0) =
      some Status.OBJECT_DOESNT_EXIST ∧
    read initialMaster 0 0 { doesntExist := true } =
      .error (Status.OBJECT_DOESNT_EXIST, currentVersion initialMaster 0 0) ∧
    write initialMaster 0 0 "item0" { doesntExist := true } =
      (.error (Status.OBJECT_DOESNT_EXIST, currentVersion initialMaster 0 0),
       initialMaster) ∧
    remove initialMaster 0 0 { doesntExist := true } =
      (.error (Status.OBJECT_DOESNT_EXIST, currentVersion initialMaster 0 0),
       initialMaster) :=
  ⟨by decide, rfl,
   reject_fires_error_and_frame initialMaster 0 0 "item0"
     { doesntExist := true } Status.OBJECT_DOESNT_EXIST 0 (by decide) rfl⟩

/-! ## Write/create followed by read -/

/-- C4: every accepted create or write of a value is visible to the next
read of that key: the read succeeds and returns exactly the written bytes
and the version the create or write returned (for create, under the side
condition that some tablet covers the allocated id, as in the tests where
the tablet spans the whole table). -/
theorem write_create_read_roundtrip :
    (∀ (s s' : MasterState) (tid : TableId) (oid : ObjectId) (value : String)
        (rules : RejectRules) (v : Version),
        write s tid oid value rules = (.ok v, s') →
        read s' tid oid noRules = .ok (value, v)) ∧
    (∀ (s s' : MasterState) (tid : TableId) (value : String) (id : ObjectId)
        (v : Version) (hdl : Nat),
        create s tid value = (.ok (id, v), s') →
        getTable s tid id = some hdl →
        read s' tid id noRules = .ok (value, v)) := by
  constructor
  · intro s s' tid oid value rules v hw
    rcases hg : getTable s tid oid with _ | h
    · rw [write, hg] at hw; simp at hw
    rcases hr : rejectOperation rules (currentVersion s tid oid) with _ | st
    · rw [write, hg] at hw
      simp only [hr] at hw
      obtain ⟨hv, hs⟩ := Prod.mk.inj hw
      have hv := Except.ok.inj hv
      have htab : s'.tablets = s.tablets := by rw [← hs]
      have hget : getTable s' tid oid = some h := by
        rw [getTable, htab, ← getTable, hg]
      rw [read, hget, ← hs]
      simp [ObjectMap.update, ← hv, rejectOperation_noRules]
    · rw [write, hg] at hw
      simp only [hr] at hw
      simp at hw
  · intro s s' tid value id v hdl hc hg
    rcases hgc : getTableForCreate s tid with _ | h
    · rw [create, hgc] at hc; simp at hc
    rw [create, hgc] at hc
    obtain ⟨hiv, hs⟩ := Prod.mk.inj hc
    obtain ⟨hid, hv⟩ := Prod.mk.inj (Except.ok.inj hiv)
    have htab : s'.tablets = s.tablets := by rw [← hs]
    have hget : getTable s' tid id = some hdl := by
      rw [getTable, htab, ← getTable, hg]
    rw [read, hget, ← hs]
    simp [ObjectMap.update, ← hid, ← hv, rejectOperation_noRules]

/-- C4 witness: the S2 scenario — write "item0" to (0, 3) on the setUp
master, then read it back: value "item0" at version 1. -/
theorem write_create_read_roundtrip_witness :
    write initialMaster 0 3 "item0" noRules =
      (.ok 1, (write initialMaster 0 3 "item0" noRules).2) ∧
    read (write initialMaster 0 3 "item0" noRules).2 0 3 noRules =
      .ok ("item0", 1) := by
  have h1 : write initialMaster 0 3 "item0" noRules =
      (.ok 1, (write initialMaster 0 3 "item0" noRules).2) := by
    constructor
  exact ⟨h1, write_create_read_roundtrip.1 initialMaster
    (write initialMaster 0 3 "item0" noRules).2 0 3 "item0" noRules 1 h1⟩

/-! ## Replay: version ties between objects and tombstones -/

/-- C1: during segment replay a version tie between a tombstone and an
object for the same key resolves to the tombstone regardless of arrival
order: a replayed tombstone whose version equals the indexed object's
version is accepted and replaces the object; a replayed object whose
version equals the indexed tombstone's version is rejected (the whole
index is unchanged); and replaying both entries in either order followed
by removeTombstones leaves the key absent, so a read fails with
OBJECT_DOESNT_EXIST. -/
theorem replay_version_tie_tombstone_wins :
    (∀ (m : ObjectMap) (sid tid oid : Nat) (v : Version) (val : String),
        m (tid, oid) = some (.object v val) →
        recoverEntry m (.tomb sid tid oid v) (tid, oid) =
          some (.tombstone sid v)) ∧
    (∀ (m : ObjectMap) (sid' tid oid : Nat) (v : Version) (val : String),
        m (tid, oid) = some (.tombstone sid' v) →
        recoverEntry m (.obj tid oid v val) = m) ∧
    (∀ (s : MasterState) (hdl sid tid oid : Nat) (v : Version) (val : String),
        getTable s tid oid = some hdl →
        s.objectMap (tid, oid) = none →
        ∀ after : MasterState,
          (after = removeTombstones
              (recoverSegment (recoverSegment s [.obj tid oid v val])
                [.tomb sid tid oid v]) ∨
           after = removeTombstones
              (recoverSegment (recoverSegment s [.tomb sid tid oid v])
                [.obj tid oid v val])) →
          after.objectMap (tid, oid) = none ∧
          read after tid oid noRules =
            .error (Status.OBJECT_DOESNT_EXIST, VERSION_NONEXISTENT)) := by
  refine ⟨?_, ?_, ?_⟩
  · intro m sid tid oid v val hm
    simp [recoverEntry, hm, ObjectMap.update]
  · intro m sid' tid oid v val hm
    simp [recoverEntry, hm]
  · intro s hdl sid tid oid v val hg hm after hafter
    have htab : after.tablets = s.tablets := by
      rcases hafter with h | h <;> rw [h] <;> rfl
    have hmap : after.objectMap (tid, oid) = none := by
      rcases hafter with h | h <;> rw [h] <;>
        simp [removeTombstones, removeTombstonesMap, recoverSegment,
          recoverSegmentMap, recoverEntry, hm, ObjectMap.update]
    refine ⟨hmap, ?_⟩
    have hget : getTable after tid oid = some hdl := by
      rw [getTable, htab, ← getTable, hg]
    rw [read, hget, hmap]

/-- C1 witness: the S7 scenario on the setUp master — replay tombstone
(0, 2005, v = 0) then object (0, 2005, v = 0, "older"); after the sweep
the key is absent and reading it fails with OBJECT_DOESNT_EXIST. -/
theorem replay_version_tie_tombstone_wins_witness :
    getTable initialMaster 0 2005 = some 0 ∧
    initialMaster.objectMap (0, 2005) = none ∧
    (removeTombstones
        (recoverSegment (recoverSegment initialMaster [.tomb 0 0 2005 0])
          [.obj 0 2005 0 "older"])).objectMap (0, 2005) = none ∧
    read (removeTombstones
        (recoverSegment (recoverSegment initialMaster [.tomb 0 0 2005 0])
          [.obj 0 2005 0 "older"])) 0 2005 noRules =
      .error (Status.OBJECT_DOESNT_EXIST, VERSION_NONEXISTENT) :=
  ⟨by decide, rfl,
   replay_version_tie_tombstone_wins.2.2 initialMaster 0 0 0 2005 0 "older"
     (by decide) rfl _ (Or.inr rfl)⟩

/-! ## Replay: permutation invariance -/

/-- Rank arithmetic: object beats object iff strictly newer. -/
theorem rank_oo (a b : Nat) : 2 * a + 1 < 2 * b + 1 ↔ a < b := by omega

/-- Rank arithmetic: object beats tombstone iff strictly newer. -/
theorem rank_to (a b : Nat) : 2 * a + 2 < 2 * b + 1 ↔ a < b := by omega

/-- Rank arithmetic: tombstone beats object iff equal or newer. -/
theorem rank_ot (a b : Nat) : 2 * a + 1 < 2 * b + 2 ↔ a ≤ b := by omega

/-- Rank arithmetic: tombstone beats tombstone iff strictly newer. -/
theorem rank_tt (a b : Nat) : 2 * a + 2 < 2 * b + 2 ↔ a < b := by omega

/-- Rank arithmetic: anything beats an empty cell. -/
theorem rank_none_o (a : Nat) : 0 < 2 * a + 1 := by omega

/-- Rank arithmetic: anything beats an empty cell. -/
theorem rank_none_t (a : Nat) : 0 < 2 * a + 2 := by omega

/-- The §4.6 merge, per key, keeps the strictly stronger of the cell and
the replayed entry, where strength is `stateRank`. -/
theorem recoverEntry_apply (m : ObjectMap) (e : LogEntry) (k : Key) :
    recoverEntry m e k = if k = e.key then stepEntry (m e.key) e else m k := by
  rcases e with ⟨t, i, vr, d⟩ | ⟨sid, t, i, vt⟩ <;>
  rcases hm : m (t, i) with _ | (⟨vo, val⟩ | ⟨sid', vt'⟩) <;>
  by_cases hk : k = (t, i)
  all_goals
    first
      | (subst hk
         simp only [recoverEntry, hm, LogEntry.key, LogEntry.toIndex,
           stepEntry, stateRank, ObjectMap.update, ite_apply,
           rank_oo, rank_to, rank_ot, rank_tt, rank_none_o, rank_none_t,
           eq_self_iff_true, if_true])
      | (simp only [recoverEntry, hm, LogEntry.key, LogEntry.toIndex,
           stepEntry, stateRank, ObjectMap.update, ite_apply,
           rank_oo, rank_to, rank_ot, rank_tt, rank_none_o, rank_none_t,
           hk, if_false, ite_self])

/-- Two merge steps on the same cell commute when the two entries have
different strengths (or are the same entry). -/
theorem stepEntry_comm (cur : Option IndexEntry) (a b : LogEntry)
    (h : stateRank (some a.toIndex) ≠ stateRank (some b.toIndex)) :
    stepEntry (stepEntry cur a) b = stepEntry (stepEntry cur b) a := by
  unfold stepEntry
  split_ifs <;> first | rfl | omega

/-- Merging two log entries commutes provided entries for the same key
with the same strength are identical. -/
theorem recoverEntry_comm (m : ObjectMap) (a b : LogEntry)
    (hab : a.key = b.key →
      stateRank (some a.toIndex) = stateRank (some b.toIndex) → a = b) :
    recoverEntry (recoverEntry m a) b = recoverEntry (recoverEntry m b) a := by
  by_cases heq : a = b
  · rw [heq]
  have hr : a.key = b.key →
      stateRank (some a.toIndex) ≠ stateRank (some b.toIndex) :=
    fun hk h => heq (hab hk h)
  funext k
  simp only [recoverEntry_apply]
  by_cases hka : k = a.key
  · subst hka
    by_cases hkb : a.key = b.key
    · simp only [hkb, eq_self_iff_true, if_true]
      exact stepEntry_comm (m b.key) a b (hr hkb)
    · simp only [hkb, Ne.symm hkb, eq_self_iff_true, if_true, if_false]
  · by_cases hkb : k = b.key
    · subst hkb
      simp only [hka, Ne.symm hka, eq_self_iff_true, if_true, if_false]
    · simp only [hka, hkb, if_false]

/-- Replaying a well-versioned collection of entries is invariant under
permutation of the entries. -/
theorem recoverSegmentMap_perm (m : ObjectMap) (es es' : List LogEntry)
    (hwv : WellVersioned es) (hp : es.Perm es') :
    recoverSegmentMap m es = recoverSegmentMap m es' :=
  hp.foldl_eq' (fun x hx y hy z => recoverEntry_comm z x y (hwv x hx y hy)) m

/-- Replaying a list of segments folds the per-entry merge over their
concatenated entries. -/
theorem foldl_recoverSegment_objectMap (segs : List (List LogEntry))
    (s : MasterState) :
    (segs.foldl recoverSegment s).objectMap =
      recoverSegmentMap s.objectMap segs.flatten := by
  induction segs generalizing s with
  | nil => rfl
  | cons a t ih =>
      rw [List.foldl_cons, ih, List.flatten_cons]
      simp [recoverSegment, recoverSegmentMap, List.foldl_append]

/-- C2 (amended): replaying recovered segments through recoverSegment in
any permutation yields the same final ObjectIndex state, provided the
segments are well-versioned (no two distinct entries for the same key
carry the same version and the same kind — true of any real log, where
per-key versions identify entries); in particular, for two OBJECT entries
for the same key with versions 1 and 0, either replay order leaves the
index holding the version-1 object and a read returns its value at
version 1. -/
theorem recoverSegment_perm_invariant :
    (∀ (s : MasterState) (segs segs' : List (List LogEntry)),
        WellVersioned segs.flatten → segs.Perm segs' →
        (segs.foldl recoverSegment s).objectMap =
          (segs'.foldl recoverSegment s).objectMap) ∧
    (([[.obj 0 2000 1 "newer"], [.obj 0 2000 0 "older"]].foldl
        recoverSegment initialMaster).objectMap (0, 2000) =
      some (.object 1 "newer") ∧
     ([[.obj 0 2000 0 "older"], [.obj 0 2000 1 "newer"]].foldl
        recoverSegment initialMaster).objectMap (0, 2000) =
      some (.object 1 "newer") ∧
     read ([[.obj 0 2000 1 "newer"], [.obj 0 2000 0 "older"]].foldl
        recoverSegment initialMaster) 0 2000 noRules = .ok ("newer", 1) ∧
     read ([[.obj 0 2000 0 "older"], [.obj 0 2000 1 "newer"]].foldl
        recoverSegment initialMaster) 0 2000 noRules = .ok ("newer", 1)) := by
  refine ⟨fun s segs segs' hwv hp => ?_, rfl, rfl, rfl, rfl⟩
  rw [foldl_recoverSegment_objectMap, foldl_recoverSegment_objectMap]
  exact recoverSegmentMap_perm s.objectMap segs.flatten segs'.flatten hwv
    hp.flatten

/-- C2 witness: the S5 segments replayed in swapped orders produce the
same index. -/
theorem recoverSegment_perm_invariant_witness :
    WellVersioned ([[LogEntry.obj 0 2000 1 "newer"],
        [LogEntry.obj 0 2000 0 "older"]] : List (List LogEntry)).flatten ∧
    ([[LogEntry.obj 0 2000 1 "newer"], [LogEntry.obj 0 2000 0 "older"]] :
        List (List LogEntry)).Perm
      [[LogEntry.obj 0 2000 0 "older"], [LogEntry.obj 0 2000 1 "newer"]] ∧
    ([[LogEntry.obj 0 2000 1 "newer"], [LogEntry.obj 0 2000 0 "older"]].foldl
        recoverSegment initialMaster).objectMap =
      ([[LogEntry.obj 0 2000 0 "older"], [LogEntry.obj 0 2000 1 "newer"]].foldl
        recoverSegment initialMaster).objectMap :=
  ⟨by decide, by decide,
   recoverSegment_perm_invariant.1 initialMaster
     [[LogEntry.obj 0 2000 1 "newer"], [LogEntry.obj 0 2000 0 "older"]]
     [[LogEntry.obj 0 2000 0 "older"], [LogEntry.obj 0 2000 1 "newer"]]
     (by decide) (by decide)⟩

/-- C2 counterexample: without the well-versioned proviso the claim is
false — two OBJECT entries for key (0, 2000) with the same version 1 but
different payloads replay to different final indexes in the two orders
(the merge keeps the first arrival on a version tie between objects), so
replay order is observable. -/
theorem recoverSegment_perm_counterexample :
    ([[LogEntry.obj 0 2000 1 "a"], [LogEntry.obj 0 2000 1 "b"]] :
        List (List LogEntry)).Perm
      [[LogEntry.obj 0 2000 1 "b"], [LogEntry.obj 0 2000 1 "a"]] ∧
    ([[LogEntry.obj 0 2000 1 "a"], [LogEntry.obj 0 2000 1 "b"]].foldl
        recoverSegment initialMaster).objectMap ≠
      ([[LogEntry.obj 0 2000 1 "b"], [LogEntry.obj 0 2000 1 "a"]].foldl
        recoverSegment initialMaster).objectMap := by
  refine ⟨by decide, fun h => ?_⟩
  exact absurd (congrFun h (0, 2000)) (by decide)

/-! ## setTablets: handle reuse and table-state lifetime -/

/-- A successful handle lookup comes from a pair in the list. -/
theorem lookupHandle_mem (hs : List (TableId × Nat)) (tid : TableId) (h : Nat)
    (hl : lookupHandle hs tid = some h) : (tid, h) ∈ hs := by
  induction hs with
  | nil => simp [lookupHandle] at hl
  | cons p rest ih =>
    obtain ⟨a, b⟩ := p
    by_cases hp : a = tid
    · subst hp
      simp [lookupHandle] at hl
      rw [← hl]
      exact List.mem_cons_self _ _
    · simp [lookupHandle, hp] at hl
      exact List.mem_cons_of_mem _ (ih hl)

/-- A key present in the list has a successful lookup. -/
theorem lookupHandle_isSome (hs : List (TableId × Nat)) (tid : TableId) (h : Nat)
    (hm : (tid, h) ∈ hs) : ∃ h', lookupHandle hs tid = some h' := by
  induction hs with
  | nil => simp at hm
  | cons p rest ih =>
    obtain ⟨a, b⟩ := p
    by_cases hp : a = tid
    · exact ⟨b, by simp [lookupHandle, hp]⟩
    · rcases List.mem_cons.mp hm with he | hm'
      · exact absurd (congrArg Prod.fst he).symm hp
      · obtain ⟨h', hh⟩ := ih hm'
        exact ⟨h', by simp [lookupHandle, hp, hh]⟩

/-- In a tablet set where all tablets of a table share one handle, looking
a member tablet's table up in the handle map finds that tablet's handle. -/
theorem lookupHandle_tablets (ts : List Tablet) (t : Tablet) (ht : t ∈ ts)
    (hcons : ∀ t1 ∈ ts, ∀ t2 ∈ ts,
        t1.table_id = t2.table_id → t1.user_data = t2.user_data) :
    lookupHandle (ts.map fun x => (x.table_id, x.user_data)) t.table_id =
      some t.user_data := by
  obtain ⟨h', hh⟩ := lookupHandle_isSome _ t.table_id t.user_data
    (List.mem_map_of_mem (fun x : Tablet => (x.table_id, x.user_data)) ht)
  have hmem := lookupHandle_mem _ _ _ hh
  obtain ⟨t0, ht0, he⟩ := List.mem_map.mp hmem
  obtain ⟨he1, he2⟩ := Prod.mk.inj he
  rw [hh, ← he2, hcons t0 ht0 t ht he1]

/-- Every tablet assignHandles emits has the table of some input tablet. -/
theorem assignHandles_tableIds (l : List Tablet) :
    ∀ (hs : List (TableId × Nat)) (tbls : Nat → Option Table) (nx : Nat),
      ∀ t' ∈ (assignHandles hs tbls nx l).1, ∃ t0 ∈ l, t'.table_id = t0.table_id := by
  induction l with
  | nil => intro hs tbls nx t' ht'; simp [assignHandles] at ht'
  | cons t rest ih =>
    intro hs tbls nx t' ht'
    rcases hlt : lookupHandle hs t.table_id with _ | h0 <;>
      simp only [assignHandles, hlt] at ht' <;>
      rcases List.mem_cons.mp ht' with he | hm
    · exact ⟨t, List.mem_cons_self _ _, by rw [he]⟩
    · obtain ⟨t0, ht0, he0⟩ := ih _ _ _ t' hm
      exact ⟨t0, List.mem_cons_of_mem _ ht0, he0⟩
    · exact ⟨t, List.mem_cons_self _ _, by rw [he]⟩
    · obtain ⟨t0, ht0, he0⟩ := ih _ _ _ t' hm
      exact ⟨t0, List.mem_cons_of_mem _ ht0, he0⟩

/-- When a table already has a handle in the map, every output tablet of
that table is assigned exactly that handle. -/
theorem assignHandles_lookup_some (l : List Tablet) :
    ∀ (hs : List (TableId × Nat)) (tbls : Nat → Option Table) (nx : Nat)
      (tid : TableId) (h : Nat),
      lookupHandle hs tid = some h →
      ∀ t' ∈ (assignHandles hs tbls nx l).1,
        t'.table_id = tid → t'.user_data = h := by
  induction l with
  | nil => intro hs tbls nx tid h hl t' ht'; simp [assignHandles] at ht'
  | cons t rest ih =>
    intro hs tbls nx tid h hl t' ht' htid
    rcases hlt : lookupHandle hs t.table_id with _ | h0 <;>
      simp only [assignHandles, hlt] at ht' <;>
      rcases List.mem_cons.mp ht' with he | hm
    · subst he
      simp only at htid
      rw [htid] at hlt
      rw [hlt] at hl
      exact absurd hl (by simp)
    · refine ih ((t.table_id, nx) :: hs) _ _ tid h ?_ t' hm htid
      have hne : t.table_id ≠ tid := by
        intro hc
        rw [hc, hl] at hlt
        exact absurd hlt (by simp)
      simp [lookupHandle, hne, hl]
    · subst he
      simp only at htid
      rw [htid] at hlt
      rw [hlt] at hl
      exact Option.some.inj hl
    · exact ih hs _ _ tid h hl t' hm htid

/-- assignHandles never decreases the fresh-handle allocator. -/
theorem assignHandles_next_mono (l : List Tablet) :
    ∀ (hs : List (TableId × Nat)) (tbls : Nat → Option Table) (nx : Nat),
      nx ≤ (assignHandles hs tbls nx l).2.2 := by
  induction l with
  | nil => intro hs tbls nx; simp [assignHandles]
  | cons t rest ih =>
    intro hs tbls nx
    rcases hlt : lookupHandle hs t.table_id with _ | h0 <;>
      simp only [assignHandles, hlt]
    · exact Nat.le_trans (Nat.le_succ nx) (ih _ _ _)
    · exact ih _ _ _

/-- assignHandles only creates table states at fresh handles: below the
incoming allocator the table map is untouched. -/
theorem assignHandles_tables_lt (l : List Tablet) :
    ∀ (hs : List (TableId × Nat)) (tbls : Nat → Option Table) (nx h : Nat),
      h < nx → (assignHandles hs tbls nx l).2.1 h = tbls h := by
  induction l with
  | nil => intro hs tbls nx h _; rfl
  | cons t rest ih =>
    intro hs tbls nx h hh
    rcases hlt : lookupHandle hs t.table_id with _ | h0 <;>
      simp only [assignHandles, hlt]
    · rw [ih _ _ _ _ (Nat.lt_trans hh (Nat.lt_succ_self nx))]
      simp [Nat.ne_of_lt hh]
    · exact ih _ _ _ _ hh

/-- Every output tablet's handle either was in the incoming handle map
under its table, or is a fresh handle at or above the allocator. -/
theorem assignHandles_origin (l : List Tablet) :
    ∀ (hs : List (TableId × Nat)) (tbls : Nat → Option Table) (nx : Nat),
      ∀ t' ∈ (assignHandles hs tbls nx l).1,
        (t'.table_id, t'.user_data) ∈ hs ∨ nx ≤ t'.user_data := by
  induction l with
  | nil => intro hs tbls nx t' ht'; simp [assignHandles] at ht'
  | cons t rest ih =>
    intro hs tbls nx t' ht'
    rcases hlt : lookupHandle hs t.table_id with _ | h0 <;>
      simp only [assignHandles, hlt] at ht' <;>
      rcases List.mem_cons.mp ht' with he | hm
    · subst he
      exact Or.inr (Nat.le_refl nx)
    · rcases ih _ _ _ t' hm with hin | hge
      · rcases List.mem_cons.mp hin with he' | hin'
        · obtain ⟨-, he2⟩ := Prod.mk.inj he'
          exact Or.inr (he2 ▸ Nat.le_refl nx)
        · exact Or.inl hin'
      · exact Or.inr (Nat.le_trans (Nat.le_succ nx) hge)
    · subst he
      exact Or.inl (lookupHandle_mem _ _ _ hlt)
    · exact ih _ _ _ t' hm

/-- All output tablets of the same table share one handle. -/
theorem assignHandles_share (l : List Tablet) :
    ∀ (hs : List (TableId × Nat)) (tbls : Nat → Option Table) (nx : Nat),
      ∀ t1 ∈ (assignHandles hs tbls nx l).1,
        ∀ t2 ∈ (assignHandles hs tbls nx l).1,
          t1.table_id = t2.table_id → t1.user_data = t2.user_data := by
  induction l with
  | nil => intro hs tbls nx t1 ht1; simp [assignHandles] at ht1
  | cons t rest ih =>
    intro hs tbls nx t1 ht1 t2 ht2 htid
    rcases hlt : lookupHandle hs t.table_id with _ | h0 <;>
      simp only [assignHandles, hlt] at ht1 ht2
    · have hlt' : lookupHandle ((t.table_id, nx) :: hs) t.table_id = some nx := by
        simp [lookupHandle]
      rcases List.mem_cons.mp ht1 with he1 | hm1 <;>
        rcases List.mem_cons.mp ht2 with he2 | hm2
      · rw [he1, he2]
      · subst he1
        simp only at htid ⊢
        exact (assignHandles_lookup_some rest _ _ _ _ _ hlt' t2 hm2 htid.symm).symm
      · subst he2
        simp only at htid ⊢
        exact assignHandles_lookup_some rest _ _ _ _ _ hlt' t1 hm1 htid
      · exact ih _ _ _ t1 hm1 t2 hm2 htid
    · rcases List.mem_cons.mp ht1 with he1 | hm1 <;>
        rcases List.mem_cons.mp ht2 with he2 | hm2
      · rw [he1, he2]
      · subst he1
        simp only at htid ⊢
        exact (assignHandles_lookup_some rest _ _ _ _ _ hlt t2 hm2 htid.symm).symm
      · subst he2
        simp only at htid ⊢
        exact assignHandles_lookup_some rest _ _ _ _ _ hlt t1 hm1 htid
      · exact ih _ _ _ t1 hm1 t2 hm2 htid

/-- C10: setTablets preserves the per-table handle (user_data) of every
tablet whose table also appears in the new set — the new tablets of a
surviving table reuse the old handle and keep its per-table state — and
all tablets of one table in the new set share one handle; only tables
absent from the new set have their per-table state dropped.  The
hypotheses are the master's tablet-set invariants: tablets of one table
share a handle, distinct tables have distinct handles, and all handles
are below the fresh-handle allocator. -/
theorem setTablets_preserves_table_state (s : MasterState)
    (newTablets : List Tablet)
    (hcons : ∀ t1 ∈ s.tablets, ∀ t2 ∈ s.tablets,
        t1.table_id = t2.table_id → t1.user_data = t2.user_data)
    (hinj : ∀ t1 ∈ s.tablets, ∀ t2 ∈ s.tablets,
        t1.user_data = t2.user_data → t1.table_id = t2.table_id)
    (hfresh : ∀ t ∈ s.tablets, t.user_data < s.nextHandle) :
    (∀ t' ∈ (setTablets s newTablets).tablets, ∀ t ∈ s.tablets,
        t'.table_id = t.table_id →
        t'.user_data = t.user_data ∧
        (setTablets s newTablets).tables t.user_data = s.tables t.user_data) ∧
    (∀ t1 ∈ (setTablets s newTablets).tablets,
        ∀ t2 ∈ (setTablets s newTablets).tablets,
          t1.table_id = t2.table_id → t1.user_data = t2.user_data) ∧
    (∀ t ∈ s.tablets, (∀ tn ∈ newTablets, tn.table_id ≠ t.table_id) →
        (setTablets s newTablets).tables t.user_data = none) := by
  refine ⟨?_, ?_, ?_⟩
  · intro t' ht' t ht htid
    simp only [setTablets] at ht'
    have hl := lookupHandle_tablets s.tablets t ht hcons
    have hud := assignHandles_lookup_some newTablets _ s.tables s.nextHandle
      t.table_id t.user_data hl t' ht' htid
    refine ⟨hud, ?_⟩
    simp only [setTablets]
    have hany : (assignHandles (s.tablets.map fun x => (x.table_id, x.user_data))
        s.tables s.nextHandle newTablets).1.any
          (fun x => decide (x.user_data = t.user_data)) = true := by
      rw [List.any_eq_true]
      exact ⟨t', ht', by simp [hud]⟩
    rw [if_pos hany]
    exact assignHandles_tables_lt newTablets _ s.tables s.nextHandle
      t.user_data (hfresh t ht)
  · intro t1 ht1 t2 ht2 htid
    simp only [setTablets] at ht1 ht2
    exact assignHandles_share newTablets _ s.tables s.nextHandle t1 ht1 t2 ht2
      htid
  · intro t ht habs
    simp only [setTablets]
    have hany : ¬((assignHandles (s.tablets.map fun x => (x.table_id, x.user_data))
        s.tables s.nextHandle newTablets).1.any
          (fun x => decide (x.user_data = t.user_data)) = true) := by
      rw [List.any_eq_true]
      rintro ⟨t', ht', hdec⟩
      have hud : t'.user_data = t.user_data := of_decide_eq_true hdec
      rcases assignHandles_origin newTablets _ s.tables s.nextHandle t' ht'
        with hin | hge
      · obtain ⟨t0, ht0, he⟩ := List.mem_map.mp hin
        obtain ⟨he1, he2⟩ := Prod.mk.inj he
        have htid0 : t0.table_id = t.table_id :=
          hinj t0 ht0 t ht (he2.trans hud)
        obtain ⟨tn, htn, hetn⟩ := assignHandles_tableIds newTablets _
          s.tables s.nextHandle t' ht'
        exact habs tn htn (by rw [← hetn, ← he1, htid0])
      · rw [hud] at hge
        exact absurd (hfresh t ht) (Nat.not_lt.mpr hge)
    rw [if_neg hany]

/-- C10 witness: the test_setTablets scenario — old tables 1 (handle 5)
and 2 (handle 6); the new set has two tablets of table 2 and one of
table 3.  Both new table-2 tablets get handle 6 with table 2's state
kept, and table 1's state (handle 5) is dropped. -/
theorem setTablets_preserves_table_state_witness :
    ({ table_id := 2, start_object_id := 0, end_object_id := 1,
       state := .NORMAL, user_data := 6 } : Tablet) ∈
        (setTablets twoTableMaster newTabletSet).tablets ∧
    (setTablets twoTableMaster newTabletSet).tables 6 =
      twoTableMaster.tables 6 ∧
    (setTablets twoTableMaster newTabletSet).tables 5 = none :=
  ⟨by decide,
   ((setTablets_preserves_table_state twoTableMaster newTabletSet
       (by decide) (by decide) (by decide)).1
     { table_id := 2, start_object_id := 0, end_object_id := 1,
       state := .NORMAL, user_data := 6 } (by decide)
     { table_id := 2, start_object_id := 0, end_object_id := 1,
       state := .NORMAL, user_data := 6 } (by decide) rfl).2,
   (setTablets_preserves_table_state twoTableMaster newTabletSet
       (by decide) (by decide) (by decide)).2.2
     { table_id := 1, start_object_id := 0, end_object_id := 1,
       state := .NORMAL, user_data := 5 } (by decide) (by decide)⟩

end RAMCloud
